import Mathlib

/-
Verification of the `video2txt` video processor
(`src/backend/video_processor.py`) against its natural-language
specification.

The Python module is a thin wrapper around the filesystem, the `yt_dlp`
download library and the `ffmpeg`/`ffprobe` binaries.  We embed it
shallowly: every external effect is an oracle recorded in an environment
structure (`DlEnv`, `InfoEnv`), and the functions below mirror the
Python control flow over those oracles, additionally returning a trace
of the external calls performed.  Durations are modelled as exact
rationals (`ℚ`), Python float truthiness as `≠ 0`.
-/

set_option autoImplicit false

namespace Video2Txt

/-- External calls performed by `download_and_convert`, in order. -/
inductive ExtCall where
  /-- `ydl.extract_info(url, False)` — network metadata extraction. -/
  | extractInfoCall
  /-- `ydl.download([url])` — network download of the asset. -/
  | downloadCall
  /-- the local-branch `ffmpeg` audio-extraction subprocess. -/
  | ffmpegExtract
  /-- an `ffprobe` duration probe of the given path. -/
  | probeCall (path : String)
  /-- the repair re-encode `ffmpeg` subprocess. -/
  | fixCall
deriving DecidableEq

/-- The metadata dictionary returned by `ydl.extract_info` on the main
flow: the two keys the code reads.  `none` models an absent key. -/
structure InfoDict where
  title : Option String
  duration : Option ℚ
deriving DecidableEq

/-- Outcome oracle for one run of `download_and_convert`.  Each field
fixes what the corresponding external call would do in that run.
A probe oracle `Option (Option ℚ)` is `none` when `subprocess.check_output`
raises, `some none` when it returns an empty string, and `some (some d)`
when it prints duration `d`. -/
structure DlEnv where
  /-- `os.path.exists`. -/
  fsExists : String → Bool
  /-- result of `ydl.extract_info(url, False)`; `none` means it raised. -/
  extractInfo : Option InfoDict
  /-- message of the exception raised by `extract_info`, when it raised. -/
  extractErr : String
  /-- whether `ydl.download([url])` succeeded. -/
  downloadOk : Bool
  /-- message of the exception raised by `download`, when it raised. -/
  downloadErr : String
  /-- whether the local-branch `ffmpeg` extraction (`check_call`) succeeded. -/
  localFfmpegOk : Bool
  /-- message of the `ffmpeg` extraction failure, when it failed. -/
  localFfmpegErr : String
  /-- `ffprobe` of the local source video's duration. -/
  localProbe : Option (Option ℚ)
  /-- `ffprobe` of the produced audio file's duration. -/
  audioProbe : Option (Option ℚ)
  /-- whether the repair re-encode (`check_call fix_cmd`) succeeded. -/
  fixOk : Bool
  /-- the informational re-probe after a successful repair. -/
  reProbe : Option (Option ℚ)

/-- `float(out) if out else 0.0` around a probe that may raise: a failed
probe and an empty output both downgrade the duration to `0`. -/
def probeVal : Option (Option ℚ) → ℚ
  | none => 0
  | some none => 0
  | some (some d) => d

/-- Python `str.lower` (on the ASCII range the code cares about). -/
def strLower (s : String) : String := ⟨s.data.map Char.toLower⟩

/-- Python `str.endswith` for a single suffix. -/
def strEndsWith (s t : String) : Bool := t.data.isSuffixOf s.data

/-- `url.lower().endswith(('.mp4', '.mov', '.avi', '.flv'))`. -/
def hasVideoExt (url : String) : Bool :=
  strEndsWith (strLower url) ".mp4" || strEndsWith (strLower url) ".mov" ||
    strEndsWith (strLower url) ".avi" || strEndsWith (strLower url) ".flv"

/-- The local-file test of the source:
`os.path.exists(url) and url.lower().endswith((...))`. -/
def isLocalFile (fsExists : String → Bool) (url : String) : Bool :=
  fsExists url && hasVideoExt url

/-- `os.path.basename` (POSIX): everything after the last slash. -/
def basename (p : String) : String :=
  ⟨(p.data.reverse.takeWhile (fun c => c ≠ '/')).reverse⟩

/-- `str(output_dir / f"audio_{unique_id}.{ext}")`. -/
def audioPath (outputDir uid ext : String) : String :=
  outputDir ++ "/audio_" ++ uid ++ "." ++ ext

/-- `str(output_dir / f"audio_{unique_id}_fixed.m4a")`. -/
def fixedPath (outputDir uid : String) : String :=
  outputDir ++ "/audio_" ++ uid ++ "_fixed.m4a"

/-- The fallback extensions probed by the output locator, in source order. -/
def fallbackExts : List String := ["webm", "mp4", "mp3", "wav"]

/-- The output locator of the remote branch: accept `audio_<uid>.m4a`
if it exists, otherwise the first existing fallback candidate,
otherwise raise `"未找到下载的音频文件"`. -/
def locateOutput (fsExists : String → Bool) (outputDir uid : String) :
    Except String String :=
  let primary := audioPath outputDir uid "m4a"
  if fsExists primary then .ok primary
  else
    match fallbackExts.find? (fun e => fsExists (audioPath outputDir uid e)) with
    | some e => .ok (audioPath outputDir uid e)
    | none => .error "未找到下载的音频文件"

/-- What the acquisition part of `download_and_convert` hands to the
duration-validation part. -/
structure Acquired where
  audioFile : String
  expectedDuration : ℚ
  videoTitle : String
deriving DecidableEq

/-- Classification, acquisition and output location: everything in
`download_and_convert` before the duration check.  Mirrors the source:
the local branch runs `ffmpeg` then best-effort probes the source
duration; the remote branch runs `extract_info`, `download`, then the
output locator. -/
def acquirePhase (env : DlEnv) (url outputDir uid : String) :
    Except String Acquired × List ExtCall :=
  if isLocalFile env.fsExists url then
    let videoTitle := basename url
    let audioFile := audioPath outputDir uid "m4a"
    if env.localFfmpegOk then
      (.ok ⟨audioFile, probeVal env.localProbe, videoTitle⟩,
        [.ffmpegExtract, .probeCall url])
    else
      (.error env.localFfmpegErr, [.ffmpegExtract])
  else
    match env.extractInfo with
    | none => (.error env.extractErr, [.extractInfoCall])
    | some info =>
      let videoTitle := info.title.getD "unknown"
      let expected := info.duration.getD 0
      if env.downloadOk then
        match locateOutput env.fsExists outputDir uid with
        | .ok f =>
          (.ok ⟨f, expected, videoTitle⟩, [.extractInfoCall, .downloadCall])
        | .error m => (.error m, [.extractInfoCall, .downloadCall])
      else
        (.error env.downloadErr, [.extractInfoCall, .downloadCall])

/-- Python `abs` on the (exactly modelled) float durations. -/
def ratAbs (q : ℚ) : ℚ := if q < 0 then -q else q

/-- `if expected_duration and actual_duration and
abs(actual - expected) / expected > 0.1`. -/
def durationMismatch (expected actual : ℚ) : Bool :=
  decide (expected ≠ 0) && decide (actual ≠ 0) &&
    decide (ratAbs (actual - expected) / expected > 1 / 10)

/-- The duration check and best-effort repair.  The probe failure is
swallowed (`actual` downgrades to `0`); on mismatch one repair attempt
is made; if the re-encode succeeds the fixed path is adopted (the
subsequent informational re-probe cannot undo this even if it raises);
if the re-encode fails the original file is kept.  Returns the final
audio path and the calls made. -/
def validatePhase (env : DlEnv) (outputDir uid audioFile : String)
    (expected : ℚ) : String × List ExtCall :=
  let actual := probeVal env.audioProbe
  if durationMismatch expected actual then
    if env.fixOk then
      (fixedPath outputDir uid, [.probeCall audioFile, .fixCall, .probeCall audioFile])
    else
      (audioFile, [.probeCall audioFile, .fixCall])
  else
    (audioFile, [.probeCall audioFile])

/-- The outer `except` wrapper's message. -/
def failSummary : String := "视频处理失败: "

/-- Full model of `download_and_convert`: acquisition then validation,
with every escaping exception re-raised as
`Exception(f"视频处理失败: {str(e)}")`.  Returns the
(audio path, title) pair or the propagated error message, together with
the trace of external calls. -/
def download_and_convert (env : DlEnv) (url outputDir uid : String) :
    Except String (String × String) × List ExtCall :=
  match acquirePhase env url outputDir uid with
  | (.error e, t) => (.error (failSummary ++ e), t)
  | (.ok acq, t) =>
    let v := validatePhase env outputDir uid acq.audioFile acq.expectedDuration
    (.ok (v.fst, acq.videoTitle), t ++ v.snd)

/-- Which phase raised the exception that the outer wrapper re-wraps,
read off the same control flow (`none` when the call succeeds). -/
inductive Phase where
  | acquisition
  | localExtraction
  | outputLocation
deriving DecidableEq

/-- The phase in which a run of `download_and_convert` fails, if any. -/
def failingPhase (env : DlEnv) (url outputDir uid : String) : Option Phase :=
  if isLocalFile env.fsExists url then
    if env.localFfmpegOk then none else some .localExtraction
  else
    match env.extractInfo with
    | none => some .acquisition
    | some _ =>
      if env.downloadOk then
        match locateOutput env.fsExists outputDir uid with
        | .ok _ => none
        | .error _ => some .outputLocation
      else some .acquisition

/-- The reusable options dictionary built in `VideoProcessor.__init__`:
the keys the constructor sets. -/
structure YdlOpts where
  format : String
  outtmpl : String
  postprocessorKey : String
  preferredcodec : String
  preferredquality : String
  postprocessor_args : List String
  prefer_ffmpeg : Bool
  quiet : Bool
  no_warnings : Bool
  noplaylist : Bool
deriving DecidableEq

/-- `self.ydl_opts` as `__init__` constructs it. -/
def defaultYdlOpts : YdlOpts where
  format := "bestaudio/best"
  outtmpl := "%(title)s.%(ext)s"
  postprocessorKey := "FFmpegExtractAudio"
  preferredcodec := "m4a"
  preferredquality := "192"
  postprocessor_args := ["-ac", "1", "-ar", "16000", "-movflags", "+faststart"]
  prefer_ffmpeg := true
  quiet := true
  no_warnings := true
  noplaylist := true

/-- The per-call output template `str(output_dir / f"audio_{uid}.%(ext)s")`. -/
def outputTemplate (outputDir uid : String) : String :=
  outputDir ++ "/audio_" ++ uid ++ ".%(ext)s"

/-- Python dicts are heap references; a store maps references to their
current contents.  `ydl_opts = self.ydl_opts.copy()` writes a copy of
the dict at `src` into the fresh reference `dst`. -/
def copyRef (store : Nat → YdlOpts) (src dst : Nat) : Nat → YdlOpts :=
  fun r => if r = dst then store src else store r

/-- `ydl_opts['outtmpl'] = output_template`: in-place update of the dict
at reference `ref`. -/
def setOuttmpl (store : Nat → YdlOpts) (ref : Nat) (tmpl : String) :
    Nat → YdlOpts :=
  fun r => if r = ref then { store ref with outtmpl := tmpl } else store r

/-- The option handling of `download_and_convert`
(`ydl_opts = self.ydl_opts.copy(); ydl_opts['outtmpl'] = output_template`)
as a heap transformation: `selfRef` holds `self.ydl_opts`, `freshRef` is
the reference allocated for the copy.  Returns the new store and the
reference of the per-call options. -/
def optsSetup (store : Nat → YdlOpts) (selfRef freshRef : Nat) (tmpl : String) :
    (Nat → YdlOpts) × Nat :=
  (setOuttmpl (copyRef store selfRef freshRef) freshRef tmpl, freshRef)

/-- The metadata dictionary keys `get_video_info` reads
(`none` models an absent key). -/
structure FullInfo where
  title : Option String
  duration : Option ℚ
  uploader : Option String
  upload_date : Option String
  description : Option String
  view_count : Option ℤ
deriving DecidableEq

/-- The record `get_video_info` returns on success: exactly the six
fields the source builds. -/
structure VideoInfo where
  title : String
  duration : ℚ
  uploader : String
  upload_date : String
  description : String
  view_count : ℤ
deriving DecidableEq

/-- Outcome oracle for one run of `get_video_info`:
`none` means `ydl.extract_info(url, download=False)` raised. -/
structure InfoEnv where
  extractInfo : Option FullInfo
  extractErr : String

/-- The outer wrapper message of `get_video_info`. -/
def infoFailSummary : String := "获取视频信息失败: "

/-- Model of `get_video_info`: one `extract_info(url, download=False)`
call; on success the six-field record with the source's defaults, on
failure the wrapped error.  The trace records each library call as
(reference, download-flag). -/
def get_video_info (env : InfoEnv) (url : String) :
    Except String VideoInfo × List (String × Bool) :=
  match env.extractInfo with
  | some i =>
    (.ok ⟨i.title.getD "", i.duration.getD 0, i.uploader.getD "",
        i.upload_date.getD "", i.description.getD "", i.view_count.getD 0⟩,
      [(url, false)])
  | none => (.error (infoFailSummary ++ env.extractErr), [(url, false)])

/-! ## Concrete runs used as witnesses -/

/-- A remote run: metadata reports 100 s, the produced audio probes at
50 s, the primary output exists, the repair re-encode succeeds. -/
def envRepairW : DlEnv where
  fsExists := fun p => p == "out/audio_id.m4a"
  extractInfo := some ⟨some "T", some 100⟩
  extractErr := ""
  downloadOk := true
  downloadErr := ""
  localFfmpegOk := true
  localFfmpegErr := ""
  localProbe := none
  audioProbe := some (some 50)
  fixOk := true
  reProbe := some (some 99)

/-- The same run with a failing repair re-encode. -/
def envRepairFailW : DlEnv := { envRepairW with fixOk := false }

/-- A remote run probing at 101 s against expected 100 s (within 10%). -/
def envTolerW : DlEnv := { envRepairW with audioProbe := some (some 101) }

/-- A remote run whose download wrote `audio_id.webm` only. -/
def envWebmW : DlEnv :=
  { envRepairW with fsExists := fun p => p == "out/audio_id.webm" }

/-- A remote run whose download wrote no output file at all. -/
def envNoOutW : DlEnv := { envRepairW with fsExists := fun _ => false }

/-- A remote run whose metadata extraction raises `"boom"`. -/
def envAcqFailW : DlEnv :=
  { envRepairW with
    fsExists := (fun _ => false), extractInfo := none, extractErr := "boom" }

/-- A local run (every path exists) whose `ffmpeg` extraction raises
`"boom"`. -/
def envLocalFailW : DlEnv :=
  { envRepairW with
    fsExists := (fun _ => true), localFfmpegOk := false,
    localFfmpegErr := "boom" }

/-- A local run whose two duration probes both raise. -/
def envProbeFailW : DlEnv :=
  { envRepairW with
    fsExists := (fun _ => true), localProbe := none, audioProbe := none }

/-! ## General lemmas about the model -/

/-- The program's `abs` agrees with the mathematical absolute value. -/
theorem ratAbs_eq_abs (q : ℚ) : ratAbs q = |q| := by
  rcases lt_or_le q 0 with h | h
  · simp [ratAbs, h, abs_of_neg h]
  · simp [ratAbs, not_lt.mpr h, abs_of_nonneg h]

/-- Every call in a validation trace is a probe or the repair re-encode. -/
theorem validate_trace_cases (env : DlEnv) (outputDir uid audioFile : String)
    (expected : ℚ) :
    ∀ c ∈ (validatePhase env outputDir uid audioFile expected).snd,
      c = ExtCall.fixCall ∨ ∃ p, c = ExtCall.probeCall p := by
  intro c hc
  unfold validatePhase at hc
  rcases hd : durationMismatch expected (probeVal env.audioProbe) with _ | _ <;>
    rcases hf : env.fixOk with _ | _ <;>
      simp [hd, hf] at hc <;> rcases hc with hc | hc | hc <;> simp_all

/-- The repair re-encode is attempted exactly when the mismatch test fires. -/
theorem validate_fix_count (env : DlEnv) (outputDir uid audioFile : String)
    (expected : ℚ) :
    (validatePhase env outputDir uid audioFile expected).snd.count ExtCall.fixCall =
      if durationMismatch expected (probeVal env.audioProbe) then 1 else 0 := by
  unfold validatePhase
  rcases hd : durationMismatch expected (probeVal env.audioProbe) with _ | _ <;>
    rcases hf : env.fixOk with _ | _ <;> simp [hd, hf, List.count_cons]

/-- Acquisition never runs the repair re-encode. -/
theorem acquire_fix_count (env : DlEnv) (url outputDir uid : String) :
    (acquirePhase env url outputDir uid).snd.count ExtCall.fixCall = 0 := by
  unfold acquirePhase
  rcases hl : isLocalFile env.fsExists url with _ | _ <;>
    rcases env.extractInfo with _ | info <;>
      rcases hf : env.localFfmpegOk with _ | _ <;>
        rcases hd : env.downloadOk with _ | _ <;>
          simp [hl, hf, hd] <;>
            rcases locateOutput env.fsExists outputDir uid with m | f <;> simp

/-- The final audio path of a run whose acquisition succeeded. -/
theorem dl_ok_of_acquire_ok (env : DlEnv) (url outputDir uid : String)
    (acq : Acquired) (t : List ExtCall)
    (hacq : acquirePhase env url outputDir uid = (.ok acq, t)) :
    download_and_convert env url outputDir uid =
      (.ok ((validatePhase env outputDir uid acq.audioFile acq.expectedDuration).fst,
          acq.videoTitle),
        t ++ (validatePhase env outputDir uid acq.audioFile acq.expectedDuration).snd) := by
  unfold download_and_convert
  rw [hacq]

/-- A run whose acquisition failed propagates the wrapped message. -/
theorem dl_error_of_acquire_error (env : DlEnv) (url outputDir uid : String)
    (c : String) (t : List ExtCall)
    (hacq : acquirePhase env url outputDir uid = (.error c, t)) :
    download_and_convert env url outputDir uid = (.error (failSummary ++ c), t) := by
  unfold download_and_convert
  rw [hacq]

/-! ## C3 — source resolver classification -/

/-- The allow-listed extension test, phrased over the list of extensions. -/
theorem hasVideoExt_iff (url : String) :
    hasVideoExt url = true ↔
      ∃ e ∈ [".mp4", ".mov", ".avi", ".flv"], strEndsWith (strLower url) e = true := by
  constructor
  · intro h
    simp only [hasVideoExt, Bool.or_eq_true] at h
    rcases h with ((h | h) | h) | h
    · exact ⟨".mp4", by simp, h⟩
    · exact ⟨".mov", by simp, h⟩
    · exact ⟨".avi", by simp, h⟩
    · exact ⟨".flv", by simp, h⟩
  · rintro ⟨e, he, hend⟩
    simp only [hasVideoExt, Bool.or_eq_true]
    simp only [List.mem_cons, List.not_mem_nil, or_false] at he
    rcases he with rfl | rfl | rfl | rfl
    · exact Or.inl (Or.inl (Or.inl hend))
    · exact Or.inl (Or.inl (Or.inr hend))
    · exact Or.inl (Or.inr hend)
    · exact Or.inr hend

/-- C3: `download_and_convert` takes the local branch iff the path exists
on the filesystem and its lowercased name ends in one of `.mp4`, `.mov`,
`.avi`, `.flv`; classification reads only the filesystem oracle (no
network access); every other input goes to the remote branch, whose
first external call is the metadata extraction. -/
theorem source_resolver_classification (env : DlEnv) (url outputDir uid : String) :
    (isLocalFile env.fsExists url = true ↔
      env.fsExists url = true ∧
        ∃ e ∈ [".mp4", ".mov", ".avi", ".flv"],
          strEndsWith (strLower url) e = true) ∧
    (∀ env2 : DlEnv, env2.fsExists = env.fsExists →
      isLocalFile env2.fsExists url = isLocalFile env.fsExists url) ∧
    ((acquirePhase env url outputDir uid).snd.head? =
      some (if isLocalFile env.fsExists url then ExtCall.ffmpegExtract
        else ExtCall.extractInfoCall)) := by
  refine ⟨?_, ?_, ?_⟩
  · rw [isLocalFile, Bool.and_eq_true, hasVideoExt_iff]
  · intro env2 h
    rw [h]
  · unfold acquirePhase
    rcases hl : isLocalFile env.fsExists url with _ | _ <;>
      rcases env.extractInfo with _ | info <;>
        rcases hf : env.localFfmpegOk with _ | _ <;>
          rcases hd : env.downloadOk with _ | _ <;>
            simp [hl, hf, hd] <;>
              rcases locateOutput env.fsExists outputDir uid with m | f <;> simp

/-- C3 witness: the classification facts at concrete inputs. -/
theorem source_resolver_classification_witness :
    (isLocalFile (fun p => p == "/tmp/clip.mp4") "/tmp/clip.mp4" = true ↔
      ((fun p => p == "/tmp/clip.mp4") "/tmp/clip.mp4") = true ∧
        ∃ e ∈ [".mp4", ".mov", ".avi", ".flv"],
          strEndsWith (strLower "/tmp/clip.mp4") e = true) ∧
    ((acquirePhase
        { fsExists := fun p => p == "/tmp/clip.mp4", extractInfo := none,
          extractErr := "", downloadOk := true, downloadErr := "",
          localFfmpegOk := true, localFfmpegErr := "",
          localProbe := some (some 60), audioProbe := some (some 60),
          fixOk := true, reProbe := some (some 60) }
        "/tmp/clip.mp4" "out" "id").snd.head? =
      some (if isLocalFile (fun p => p == "/tmp/clip.mp4") "/tmp/clip.mp4"
        then ExtCall.ffmpegExtract else ExtCall.extractInfoCall)) := by
  have h := source_resolver_classification
    { fsExists := fun p => p == "/tmp/clip.mp4", extractInfo := none,
      extractErr := "", downloadOk := true, downloadErr := "",
      localFfmpegOk := true, localFfmpegErr := "",
      localProbe := some (some 60), audioProbe := some (some 60),
      fixOk := true, reProbe := some (some 60) }
    "/tmp/clip.mp4" "out" "id"
  exact ⟨h.1, h.2.2⟩

/-! ## Branch-evaluation lemmas -/

/-- Acquisition on the local branch when the `ffmpeg` extraction succeeds. -/
theorem acquire_local_ok (env : DlEnv) (url outputDir uid : String)
    (hlocal : isLocalFile env.fsExists url = true)
    (hff : env.localFfmpegOk = true) :
    acquirePhase env url outputDir uid =
      (.ok ⟨audioPath outputDir uid "m4a", probeVal env.localProbe, basename url⟩,
        [.ffmpegExtract, .probeCall url]) := by
  simp [acquirePhase, hlocal, hff]

/-- Acquisition on the local branch when the `ffmpeg` extraction fails. -/
theorem acquire_local_fail (env : DlEnv) (url outputDir uid : String)
    (hlocal : isLocalFile env.fsExists url = true)
    (hff : env.localFfmpegOk = false) :
    acquirePhase env url outputDir uid =
      (.error env.localFfmpegErr, [.ffmpegExtract]) := by
  simp [acquirePhase, hlocal, hff]

/-- Acquisition on the remote branch when every step succeeds. -/
theorem acquire_remote_ok (env : DlEnv) (url outputDir uid : String)
    (info : InfoDict) (f : String)
    (hremote : isLocalFile env.fsExists url = false)
    (hinfo : env.extractInfo = some info)
    (hdl : env.downloadOk = true)
    (hloc : locateOutput env.fsExists outputDir uid = .ok f) :
    acquirePhase env url outputDir uid =
      (.ok ⟨f, info.duration.getD 0, info.title.getD "unknown"⟩,
        [.extractInfoCall, .downloadCall]) := by
  simp [acquirePhase, hremote, hinfo, hdl, hloc]

/-! ## C7 — local branch: title and no network -/

/-- C7: on the local branch the returned title is the input's base
filename (extension included), and neither the metadata extraction nor
the download of the download library is ever called. -/
theorem local_branch_title_no_network (env : DlEnv) (url outputDir uid : String)
    (hlocal : isLocalFile env.fsExists url = true) :
    (∀ r t, download_and_convert env url outputDir uid = (.ok r, t) →
      r.snd = basename url) ∧
    ExtCall.extractInfoCall ∉ (download_and_convert env url outputDir uid).snd ∧
    ExtCall.downloadCall ∉ (download_and_convert env url outputDir uid).snd := by
  rcases hff : env.localFfmpegOk with _ | _
  · have hdl := dl_error_of_acquire_error env url outputDir uid _ _
      (acquire_local_fail env url outputDir uid hlocal hff)
    refine ⟨?_, ?_, ?_⟩
    · intro r t h
      rw [hdl] at h
      simp at h
    · rw [hdl]
      simp
    · rw [hdl]
      simp
  · have hdl := dl_ok_of_acquire_ok env url outputDir uid _ _
      (acquire_local_ok env url outputDir uid hlocal hff)
    have hv := validate_trace_cases env outputDir uid
      (audioPath outputDir uid "m4a") (probeVal env.localProbe)
    refine ⟨?_, ?_, ?_⟩
    · intro r t h
      rw [hdl] at h
      simp only [Prod.mk.injEq, Except.ok.injEq] at h
      rw [← h.1]
    · rw [hdl]
      simp only [List.mem_append, List.mem_cons, List.not_mem_nil, or_false]
      rintro ((h | h) | h)
      · cases h
      · cases h
      · rcases hv _ h with h2 | ⟨p, h2⟩ <;> cases h2
    · rw [hdl]
      simp only [List.mem_append, List.mem_cons, List.not_mem_nil, or_false]
      rintro ((h | h) | h)
      · cases h
      · cases h
      · rcases hv _ h with h2 | ⟨p, h2⟩ <;> cases h2

/-- C7 witness: `/tmp/clip.mp4` yields title `"clip.mp4"` with no
download-library call. -/
theorem local_branch_title_no_network_witness :
    (∀ r t,
      download_and_convert
        { fsExists := fun p => p == "/tmp/clip.mp4", extractInfo := none,
          extractErr := "", downloadOk := true, downloadErr := "",
          localFfmpegOk := true, localFfmpegErr := "",
          localProbe := some (some 60), audioProbe := some (some 60),
          fixOk := true, reProbe := some (some 60) }
        "/tmp/clip.mp4" "out" "id" = (.ok r, t) →
      r.snd = "clip.mp4") ∧
    ExtCall.extractInfoCall ∉
      (download_and_convert
        { fsExists := fun p => p == "/tmp/clip.mp4", extractInfo := none,
          extractErr := "", downloadOk := true, downloadErr := "",
          localFfmpegOk := true, localFfmpegErr := "",
          localProbe := some (some 60), audioProbe := some (some 60),
          fixOk := true, reProbe := some (some 60) }
        "/tmp/clip.mp4" "out" "id").snd := by
  have h := local_branch_title_no_network
    { fsExists := fun p => p == "/tmp/clip.mp4", extractInfo := none,
      extractErr := "", downloadOk := true, downloadErr := "",
      localFfmpegOk := true, localFfmpegErr := "",
      localProbe := some (some 60), audioProbe := some (some 60),
      fixOk := true, reProbe := some (some 60) }
    "/tmp/clip.mp4" "out" "id" (by decide)
  exact ⟨fun r t hr => h.1 r t hr, h.2.1⟩

/-! ## C9 — per-call options are a derived copy -/

/-- C9: the per-call option handling writes only to the freshly
allocated reference: the dict held at `selfRef` (the shared defaults)
is unchanged, every other reference is unchanged, and the fresh copy
differs from the defaults only in `outtmpl`. -/
theorem opts_defaults_unchanged (store : Nat → YdlOpts) (selfRef freshRef : Nat)
    (tmpl : String) (hfresh : freshRef ≠ selfRef) :
    ((optsSetup store selfRef freshRef tmpl).fst) selfRef = store selfRef ∧
    (∀ r, r ≠ freshRef → ((optsSetup store selfRef freshRef tmpl).fst) r = store r) ∧
    ((optsSetup store selfRef freshRef tmpl).fst) freshRef =
      { store selfRef with outtmpl := tmpl } := by
  refine ⟨?_, ?_, ?_⟩
  · simp [optsSetup, setOuttmpl, copyRef, Ne.symm hfresh]
  · intro r hr
    simp [optsSetup, setOuttmpl, copyRef, hr]
  · simp [optsSetup, setOuttmpl, copyRef]

/-- C9 witness: a concrete two-reference store. -/
theorem opts_defaults_unchanged_witness :
    ((optsSetup (fun _ => defaultYdlOpts) 0 1 "out/audio_id.%(ext)s").fst) 0 =
      defaultYdlOpts ∧
    ((optsSetup (fun _ => defaultYdlOpts) 0 1 "out/audio_id.%(ext)s").fst) 1 =
      { defaultYdlOpts with outtmpl := "out/audio_id.%(ext)s" } := by
  have h := opts_defaults_unchanged (fun _ => defaultYdlOpts) 0 1
    "out/audio_id.%(ext)s" (by decide)
  exact ⟨h.1, h.2.2⟩

/-! ## C10 — the metadata query operation -/

/-- C10: `get_video_info` performs exactly one metadata-extraction call
with the download flag off; on success it returns the six-field record
(with the source's defaults for absent keys); on failure it propagates
the wrapped error. -/
theorem video_info_contract (env : InfoEnv) (url : String) :
    (get_video_info env url).snd = [(url, false)] ∧
    (∀ i, env.extractInfo = some i →
      (get_video_info env url).fst =
        .ok ⟨i.title.getD "", i.duration.getD 0, i.uploader.getD "",
          i.upload_date.getD "", i.description.getD "", i.view_count.getD 0⟩) ∧
    (env.extractInfo = none →
      (get_video_info env url).fst =
        .error (infoFailSummary ++ env.extractErr)) := by
  refine ⟨?_, ?_, ?_⟩
  · unfold get_video_info
    rcases env.extractInfo with _ | i <;> simp
  · intro i hi
    simp [get_video_info, hi]
  · intro h
    simp [get_video_info, h]

/-- C10 witness: a populated record and a failing extraction. -/
theorem video_info_contract_witness :
    (get_video_info ⟨some ⟨some "T", some 63, some "U", some "20200101",
        some "D", some 5⟩, ""⟩ "http://v").snd = [("http://v", false)] ∧
    (get_video_info ⟨some ⟨some "T", some 63, some "U", some "20200101",
        some "D", some 5⟩, ""⟩ "http://v").fst =
      .ok ⟨"T", 63, "U", "20200101", "D", 5⟩ ∧
    (get_video_info ⟨none, "boom"⟩ "http://v").fst =
      .error (infoFailSummary ++ "boom") := by
  refine ⟨(video_info_contract ⟨some ⟨some "T", some 63, some "U", some "20200101",
      some "D", some 5⟩, ""⟩ "http://v").1,
    (video_info_contract ⟨some ⟨some "T", some 63, some "U", some "20200101",
      some "D", some 5⟩, ""⟩ "http://v").2.1 _ rfl,
    (video_info_contract ⟨none, "boom"⟩ "http://v").2.2 rfl⟩

/-! ## C1, C2 — duration validation and repair -/

/-- The mismatch test fires when both durations are nonzero and the
relative difference exceeds 10%. -/
theorem durationMismatch_eq_true (e a : ℚ) (he : e ≠ 0) (ha : a ≠ 0)
    (hr : ratAbs (a - e) / e > 1 / 10) : durationMismatch e a = true := by
  simp only [durationMismatch, Bool.and_eq_true, decide_eq_true_eq]
  exact ⟨⟨he, ha⟩, hr⟩

/-- The mismatch test does not fire when a duration is unknown or the
relative difference is within 10%. -/
theorem durationMismatch_eq_false (e a : ℚ)
    (h : e = 0 ∨ a = 0 ∨ ratAbs (a - e) / e ≤ 1 / 10) :
    durationMismatch e a = false := by
  rcases h with h | h | h
  · simp [durationMismatch, h]
  · simp [durationMismatch, h]
  · have hnot : ¬ durationMismatch e a = true := by
      simp only [durationMismatch, Bool.and_eq_true, decide_eq_true_eq]
      rintro ⟨⟨he, ha⟩, hr⟩
      exact absurd h (not_le.mpr hr)
    simpa using hnot

/-- C1: when acquisition succeeded and both the expected duration and
the probed actual duration are nonzero with relative difference above
10%, exactly one repair re-encode is attempted; if it succeeds the call
returns the `_fixed.m4a` path, and if it fails the call still returns
successfully with the original path. -/
theorem repair_on_mismatch (env : DlEnv) (url outputDir uid : String)
    (acq : Acquired) (t : List ExtCall)
    (hacq : acquirePhase env url outputDir uid = (.ok acq, t))
    (hD : acq.expectedDuration ≠ 0)
    (hA : probeVal env.audioProbe ≠ 0)
    (hratio : ratAbs (probeVal env.audioProbe - acq.expectedDuration) /
      acq.expectedDuration > 1 / 10) :
    (download_and_convert env url outputDir uid).snd.count ExtCall.fixCall = 1 ∧
    (env.fixOk = true →
      (download_and_convert env url outputDir uid).fst =
        .ok (fixedPath outputDir uid, acq.videoTitle) ∧
      ∃ s, fixedPath outputDir uid = s ++ "_fixed.m4a") ∧
    (env.fixOk = false →
      (download_and_convert env url outputDir uid).fst =
        .ok (acq.audioFile, acq.videoTitle)) := by
  have hmis : durationMismatch acq.expectedDuration (probeVal env.audioProbe) = true :=
    durationMismatch_eq_true _ _ hD hA hratio
  have hdl := dl_ok_of_acquire_ok env url outputDir uid acq t hacq
  have ht : t.count ExtCall.fixCall = 0 := by
    have h0 := acquire_fix_count env url outputDir uid
    rw [hacq] at h0
    exact h0
  refine ⟨?_, ?_, ?_⟩
  · rw [hdl]
    have hv := validate_fix_count env outputDir uid acq.audioFile acq.expectedDuration
    rw [hmis] at hv
    simp [List.count_append, ht, hv]
  · intro hf
    refine ⟨?_, ⟨outputDir ++ "/audio_" ++ uid, rfl⟩⟩
    rw [hdl]
    simp [validatePhase, hmis, hf]
  · intro hf
    rw [hdl]
    simp [validatePhase, hmis, hf]

/-- C1 witness: expected 100 s against probed 50 s, once with a
succeeding and once with a failing repair. -/
theorem repair_on_mismatch_witness :
    (download_and_convert envRepairW "http://x" "out" "id").snd.count
      ExtCall.fixCall = 1 ∧
    (download_and_convert envRepairW "http://x" "out" "id").fst =
      .ok (fixedPath "out" "id", "T") ∧
    (∃ s, fixedPath "out" "id" = s ++ "_fixed.m4a") ∧
    (download_and_convert envRepairFailW "http://x" "out" "id").snd.count
      ExtCall.fixCall = 1 ∧
    (download_and_convert envRepairFailW "http://x" "out" "id").fst =
      .ok ("out/audio_id.m4a", "T") := by
  have h1 := repair_on_mismatch envRepairW "http://x" "out" "id"
    ⟨"out/audio_id.m4a", 100, "T"⟩ [.extractInfoCall, .downloadCall] rfl
    (by norm_num) (by norm_num [envRepairW, probeVal])
    (by norm_num [envRepairW, probeVal, ratAbs])
  have h2 := repair_on_mismatch envRepairFailW "http://x" "out" "id"
    ⟨"out/audio_id.m4a", 100, "T"⟩ [.extractInfoCall, .downloadCall] rfl
    (by norm_num) (by norm_num [envRepairFailW, envRepairW, probeVal])
    (by norm_num [envRepairFailW, envRepairW, probeVal, ratAbs])
  exact ⟨h1.1, (h1.2.1 rfl).1, (h1.2.1 rfl).2, h2.1, h2.2.2 rfl⟩

/-- C2: when a duration is unknown (zero) or the relative difference is
within the 10% tolerance, no repair is invoked and the located path is
returned unchanged. -/
theorem no_repair_within_tolerance (env : DlEnv) (url outputDir uid : String)
    (acq : Acquired) (t : List ExtCall)
    (hacq : acquirePhase env url outputDir uid = (.ok acq, t))
    (h : acq.expectedDuration = 0 ∨ probeVal env.audioProbe = 0 ∨
      ratAbs (probeVal env.audioProbe - acq.expectedDuration) /
        acq.expectedDuration ≤ 1 / 10) :
    (download_and_convert env url outputDir uid).fst =
      .ok (acq.audioFile, acq.videoTitle) ∧
    ExtCall.fixCall ∉ (download_and_convert env url outputDir uid).snd := by
  have hmis := durationMismatch_eq_false acq.expectedDuration
    (probeVal env.audioProbe) h
  have hdl := dl_ok_of_acquire_ok env url outputDir uid acq t hacq
  have ht : t.count ExtCall.fixCall = 0 := by
    have h0 := acquire_fix_count env url outputDir uid
    rw [hacq] at h0
    exact h0
  constructor
  · rw [hdl]
    simp [validatePhase, hmis]
  · rw [hdl]
    simp only [List.mem_append]
    rintro (hm | hm)
    · exact (List.count_eq_zero.mp ht) hm
    · simp [validatePhase, hmis] at hm

/-- C2 witness: expected 100 s against probed 101 s keeps the original
output path with no repair attempt. -/
theorem no_repair_within_tolerance_witness :
    (download_and_convert envTolerW "http://x" "out" "id").fst =
      .ok ("out/audio_id.m4a", "T") ∧
    ExtCall.fixCall ∉ (download_and_convert envTolerW "http://x" "out" "id").snd :=
  no_repair_within_tolerance envTolerW "http://x" "out" "id"
    ⟨"out/audio_id.m4a", 100, "T"⟩ [.extractInfoCall, .downloadCall] rfl
    (Or.inr (Or.inr (by norm_num [envTolerW, envRepairW, probeVal, ratAbs])))

/-! ## C4 — output locator fallback -/

/-- C4: on the remote branch, when the download reported success but the
primary `audio_<uid>.m4a` is missing, acquisition yields the first
existing candidate following the fixed order `webm, mp4, mp3, wav`; when
no candidate exists either, the whole call fails with the wrapped
output-not-found error. -/
theorem output_locator_fallback (env : DlEnv) (url outputDir uid : String)
    (info : InfoDict)
    (hremote : isLocalFile env.fsExists url = false)
    (hinfo : env.extractInfo = some info)
    (hok : env.downloadOk = true)
    (hprimary : env.fsExists (audioPath outputDir uid "m4a") = false) :
    ((acquirePhase env url outputDir uid).fst =
      if env.fsExists (audioPath outputDir uid "webm") then
        .ok ⟨audioPath outputDir uid "webm", info.duration.getD 0,
          info.title.getD "unknown"⟩
      else if env.fsExists (audioPath outputDir uid "mp4") then
        .ok ⟨audioPath outputDir uid "mp4", info.duration.getD 0,
          info.title.getD "unknown"⟩
      else if env.fsExists (audioPath outputDir uid "mp3") then
        .ok ⟨audioPath outputDir uid "mp3", info.duration.getD 0,
          info.title.getD "unknown"⟩
      else if env.fsExists (audioPath outputDir uid "wav") then
        .ok ⟨audioPath outputDir uid "wav", info.duration.getD 0,
          info.title.getD "unknown"⟩
      else .error "未找到下载的音频文件") ∧
    ((∀ e ∈ "m4a" :: fallbackExts, env.fsExists (audioPath outputDir uid e) = false) →
      (download_and_convert env url outputDir uid).fst =
        .error (failSummary ++ "未找到下载的音频文件")) := by
  constructor
  · rcases hw : env.fsExists (audioPath outputDir uid "webm") with _ | _ <;>
      rcases h4 : env.fsExists (audioPath outputDir uid "mp4") with _ | _ <;>
        rcases h3 : env.fsExists (audioPath outputDir uid "mp3") with _ | _ <;>
          rcases hv : env.fsExists (audioPath outputDir uid "wav") with _ | _ <;>
            simp [acquirePhase, locateOutput, fallbackExts, List.find?,
              hremote, hinfo, hok, hprimary, hw, h4, h3, hv]
  · intro hall
    have hw := hall "webm" (by simp [fallbackExts])
    have h4 := hall "mp4" (by simp [fallbackExts])
    have h3 := hall "mp3" (by simp [fallbackExts])
    have hv := hall "wav" (by simp [fallbackExts])
    have hloc : locateOutput env.fsExists outputDir uid =
        .error "未找到下载的音频文件" := by
      simp [locateOutput, fallbackExts, List.find?, hprimary, hw, h4, h3, hv]
    have hacq : acquirePhase env url outputDir uid =
        (.error "未找到下载的音频文件", [.extractInfoCall, .downloadCall]) := by
      simp [acquirePhase, hremote, hinfo, hok, hloc]
    rw [dl_error_of_acquire_error env url outputDir uid _ _ hacq]

/-- C4 witness: a download that wrote only `audio_id.webm` is located at
the fallback path; a download that wrote nothing fails as output-not-found. -/
theorem output_locator_fallback_witness :
    (acquirePhase envWebmW "http://x" "out" "id").fst =
      .ok ⟨"out/audio_id.webm", 100, "T"⟩ ∧
    (download_and_convert envNoOutW "http://x" "out" "id").fst =
      .error (failSummary ++ "未找到下载的音频文件") := by
  have h1 := output_locator_fallback envWebmW "http://x" "out" "id"
    ⟨some "T", some 100⟩ (by decide) rfl rfl (by decide)
  have h2 := output_locator_fallback envNoOutW "http://x" "out" "id"
    ⟨some "T", some 100⟩ (by decide) rfl rfl (by decide)
  exact ⟨by rw [h1.1]; rfl, h2.2 (by decide)⟩

/-! ## C6 — duration probe failures are swallowed -/

/-- C6: a failed duration probe is never propagated: on the local branch
a failed source probe only downgrades the expected duration to zero; and
whenever acquisition succeeded the call returns successfully whatever
the audio probe did — in particular a failed audio probe yields the
original path with no repair attempt. -/
theorem duration_probe_failure_swallowed (env : DlEnv) (url outputDir uid : String) :
    (isLocalFile env.fsExists url = true → env.localFfmpegOk = true →
      env.localProbe = none →
      (acquirePhase env url outputDir uid).fst =
        .ok ⟨audioPath outputDir uid "m4a", 0, basename url⟩) ∧
    (∀ acq t, acquirePhase env url outputDir uid = (.ok acq, t) →
      ∃ p, (download_and_convert env url outputDir uid).fst =
        .ok (p, acq.videoTitle)) ∧
    (∀ acq t, acquirePhase env url outputDir uid = (.ok acq, t) →
      env.audioProbe = none →
      (download_and_convert env url outputDir uid).fst =
        .ok (acq.audioFile, acq.videoTitle) ∧
      ExtCall.fixCall ∉ (download_and_convert env url outputDir uid).snd) := by
  refine ⟨?_, ?_, ?_⟩
  · intro hl hff hp
    rw [acquire_local_ok env url outputDir uid hl hff, hp]
    rfl
  · intro acq t hacq
    exact ⟨_, by rw [dl_ok_of_acquire_ok env url outputDir uid acq t hacq]⟩
  · intro acq t hacq hp
    have hmis : durationMismatch acq.expectedDuration (probeVal env.audioProbe) = false :=
      durationMismatch_eq_false _ _ (Or.inr (Or.inl (by rw [hp]; rfl)))
    have hdl := dl_ok_of_acquire_ok env url outputDir uid acq t hacq
    have ht : t.count ExtCall.fixCall = 0 := by
      have h0 := acquire_fix_count env url outputDir uid
      rw [hacq] at h0
      exact h0
    constructor
    · rw [hdl]
      simp [validatePhase, hmis]
    · rw [hdl]
      simp only [List.mem_append]
      rintro (hm | hm)
      · exact (List.count_eq_zero.mp ht) hm
      · simp [validatePhase, hmis] at hm

/-- C6 witness: a local run whose both probes raise still completes with
the original path, zero expected duration and no repair attempt. -/
theorem duration_probe_failure_swallowed_witness :
    (acquirePhase envProbeFailW "/tmp/clip.mp4" "out" "id").fst =
      .ok ⟨audioPath "out" "id" "m4a", 0, basename "/tmp/clip.mp4"⟩ ∧
    (download_and_convert envProbeFailW "/tmp/clip.mp4" "out" "id").fst =
      .ok ("out/audio_id.m4a", "clip.mp4") ∧
    ExtCall.fixCall ∉
      (download_and_convert envProbeFailW "/tmp/clip.mp4" "out" "id").snd := by
  have h := duration_probe_failure_swallowed envProbeFailW "/tmp/clip.mp4" "out" "id"
  have h1 := h.1 (by decide) rfl rfl
  have h3 := h.2.2 ⟨audioPath "out" "id" "m4a", 0, basename "/tmp/clip.mp4"⟩
    [.ffmpegExtract, .probeCall "/tmp/clip.mp4"] rfl rfl
  exact ⟨h1, h3.1, h3.2⟩

/-! ## C5 — error wrapping -/

/-- A failed acquisition always corresponds to a failing phase. -/
theorem failingPhase_of_acquire_error (env : DlEnv) (url outputDir uid : String)
    (c : String) (t : List ExtCall)
    (hacq : acquirePhase env url outputDir uid = (.error c, t)) :
    failingPhase env url outputDir uid ≠ none := by
  unfold failingPhase
  rcases hl : isLocalFile env.fsExists url with _ | _ <;>
    rcases hinfo : env.extractInfo with _ | info <;>
      rcases hff : env.localFfmpegOk with _ | _ <;>
        rcases hok : env.downloadOk with _ | _ <;>
          rcases hloc : locateOutput env.fsExists outputDir uid with m | f <;>
            simp [acquirePhase, hl, hinfo, hff, hok, hloc] at hacq ⊢

/-- C5 counterexample: an acquisition failure and a local-extraction
failure with the same underlying cause produce byte-identical propagated
error messages, so the propagated message cannot identify which phase
failed. -/
theorem error_wrap_uniform_counterexample :
    failingPhase envAcqFailW "http://x" "out" "id" = some Phase.acquisition ∧
    failingPhase envLocalFailW "/tmp/clip.mp4" "out" "id" =
      some Phase.localExtraction ∧
    (download_and_convert envAcqFailW "http://x" "out" "id").fst =
      .error "视频处理失败: boom" ∧
    (download_and_convert envLocalFailW "/tmp/clip.mp4" "out" "id").fst =
      .error "视频处理失败: boom" :=
  ⟨rfl, rfl, rfl, rfl⟩

/-- C5 amended: every propagated failure is re-wrapped with the fixed
summary message `"视频处理失败: "` followed by the underlying cause's
own message (so the cause is preserved), and a propagated failure only
arises when some phase actually failed; the summary itself is the same
for every phase. -/
theorem error_wrap_amended (env : DlEnv) (url outputDir uid : String) (e : String)
    (h : (download_and_convert env url outputDir uid).fst = .error e) :
    ∃ c, e = failSummary ++ c ∧
      (acquirePhase env url outputDir uid).fst = .error c ∧
      failingPhase env url outputDir uid ≠ none := by
  rcases hacq : acquirePhase env url outputDir uid with ⟨res, t⟩
  rcases res with m | acq
  · refine ⟨m, ?_, rfl,
      failingPhase_of_acquire_error env url outputDir uid m t hacq⟩
    have hdl := dl_error_of_acquire_error env url outputDir uid m t hacq
    rw [hdl] at h
    simp only [Except.error.injEq] at h
    exact h.symm
  · have hdl := dl_ok_of_acquire_ok env url outputDir uid acq t hacq
    rw [hdl] at h
    simp at h

/-- C5 amended witness: the wrapped acquisition failure message. -/
theorem error_wrap_amended_witness :
    ∃ c, "视频处理失败: boom" = failSummary ++ c ∧
      (acquirePhase envAcqFailW "http://x" "out" "id").fst = .error c ∧
      failingPhase envAcqFailW "http://x" "out" "id" ≠ none :=
  error_wrap_amended envAcqFailW "http://x" "out" "id" "视频处理失败: boom" rfl

/-! ## C8 — one metadata call, one download, playlists disabled -/

/-- Validation performs no download-library call. -/
theorem validate_trace_no_net (env : DlEnv) (outputDir uid audioFile : String)
    (expected : ℚ) :
    ((validatePhase env outputDir uid audioFile expected).snd.filter
      (fun c => decide (c = ExtCall.extractInfoCall ∨ c = ExtCall.downloadCall))) = [] := by
  unfold validatePhase
  rcases hd : durationMismatch expected (probeVal env.audioProbe) with _ | _ <;>
    rcases hf : env.fixOk with _ | _ <;> simp [hd, hf]

/-- C8: on the remote branch the download-library calls are exactly one
metadata extraction followed by one download; and the per-call options
derived from the defaults keep playlist expansion disabled. -/
theorem remote_single_fetch_noplaylist (env : DlEnv) (url outputDir uid : String)
    (info : InfoDict)
    (hremote : isLocalFile env.fsExists url = false)
    (hinfo : env.extractInfo = some info) :
    ((download_and_convert env url outputDir uid).snd.filter
      (fun c => decide (c = ExtCall.extractInfoCall ∨ c = ExtCall.downloadCall))) =
      [ExtCall.extractInfoCall, ExtCall.downloadCall] ∧
    (∀ store selfRef freshRef,
      store selfRef = defaultYdlOpts →
        (((optsSetup store selfRef freshRef
          (outputTemplate outputDir uid)).fst) freshRef).noplaylist = true) := by
  constructor
  · rcases hok : env.downloadOk with _ | _
    · have hacq : acquirePhase env url outputDir uid =
          (.error env.downloadErr, [.extractInfoCall, .downloadCall]) := by
        simp [acquirePhase, hremote, hinfo, hok]
      rw [dl_error_of_acquire_error env url outputDir uid _ _ hacq]
      simp
    · rcases hloc : locateOutput env.fsExists outputDir uid with m | f
      · have hacq : acquirePhase env url outputDir uid =
            (.error m, [.extractInfoCall, .downloadCall]) := by
          simp [acquirePhase, hremote, hinfo, hok, hloc]
        rw [dl_error_of_acquire_error env url outputDir uid _ _ hacq]
        simp
      · have hacq := acquire_remote_ok env url outputDir uid info f hremote hinfo hok hloc
        rw [dl_ok_of_acquire_ok env url outputDir uid _ _ hacq]
        simp only [List.filter_append]
        rw [validate_trace_no_net]
        simp
  · intro store selfRef freshRef hself
    simp [optsSetup, setOuttmpl, copyRef, hself, defaultYdlOpts]

/-- C8 witness: a successful remote run and the concrete derived options. -/
theorem remote_single_fetch_noplaylist_witness :
    ((download_and_convert envRepairW "http://x" "out" "id").snd.filter
      (fun c => decide (c = ExtCall.extractInfoCall ∨ c = ExtCall.downloadCall))) =
      [ExtCall.extractInfoCall, ExtCall.downloadCall] ∧
    (((optsSetup (fun _ => defaultYdlOpts) 0 1
      (outputTemplate "out" "id")).fst) 1).noplaylist = true := by
  have h := remote_single_fetch_noplaylist envRepairW "http://x" "out" "id"
    ⟨some "T", some 100⟩ (by decide) rfl
  exact ⟨h.1, h.2 (fun _ => defaultYdlOpts) 0 1 rfl⟩
